import Mathlib

/-!
Verification development for the Housing-Society-Bot repository.

Shallow embedding of the classifier (`classifier.py`), the listing store and
payment-claim store (`database.py`), and the Razorpay webhook handling
(`bot.py`), together with theorems settling the specification claims.
-/

namespace HousingBot

/- ───────────────────────── string helpers ───────────────────────── -/

/-- ASCII lower-casing of one character, as Python `str.lower` acts on ASCII. -/
def asciiLower (c : Char) : Char :=
  if 'A' ≤ c && c ≤ 'Z' then Char.ofNat (c.toNat + 32) else c

/-- ASCII lower-casing of a string. -/
def lowerStr (s : String) : String := ⟨s.data.map asciiLower⟩

/-- Does `text` start with `pat`? -/
def startsWithL : List Char → List Char → Bool
  | [], _ => true
  | _ :: _, [] => false
  | p :: ps, t :: ts => p == t && startsWithL ps ts

/-- Does `pat` occur as a contiguous substring of `text`?  (Python `in`,
SQL `LIKE '%pat%'` after case folding.) -/
def containsSub (pat : List Char) : List Char → Bool
  | [] => startsWithL pat []
  | t :: ts => startsWithL pat (t :: ts) || containsSub pat ts

/-- Python `needle in haystack` on strings. -/
def occursIn (needle hay : String) : Bool := containsSub needle.data hay.data

/- ───────────────── contact extractor (classifier.py) ───────────────── -/

/-- ASCII regex `\d`. -/
def isDigitCh (c : Char) : Bool := '0' ≤ c && c ≤ '9'

/-- ASCII regex `\w` (word character). -/
def isWordCh (c : Char) : Bool :=
  ('a' ≤ c && c ≤ 'z') || ('A' ≤ c && c ≤ 'Z') || isDigitCh c || c == '_'

/-- ASCII regex `\s` (whitespace). -/
def isSpaceCh (c : Char) : Bool :=
  c == ' ' || c == '\t' || c == '\n' || c == '\r' || c == '\x0b' || c == '\x0c'

/-- The leading-digit class `[6-9]` of the phone patterns. -/
def isLeadDigit (c : Char) : Bool := '6' ≤ c && c ≤ '9'

/-- Regex `\b` at a position whose next pattern character is a word
character: holds at the start of the text or after a non-word character. -/
def boundaryBefore (prev : Option Char) : Bool :=
  match prev with
  | none => true
  | some p => !(isWordCh p)

/-- Regex `\b` immediately before the non-word character `+`: needs a word
character on the left (so it never holds at the start of the text). -/
def boundaryBeforePlus (prev : Option Char) : Bool :=
  match prev with
  | none => false
  | some p => isWordCh p

/-- Regex `\b` after a digit: end of text or a non-word character next. -/
def boundaryAfter (rest : List Char) : Bool :=
  match rest with
  | [] => true
  | c :: _ => !(isWordCh c)

/-- Consume exactly `n` digits, returning them and the remaining text. -/
def takeDigitsN : Nat → List Char → Option (List Char × List Char)
  | 0, cs => some ([], cs)
  | _ + 1, [] => none
  | n + 1, c :: cs =>
    if isDigitCh c then
      match takeDigitsN n cs with
      | some (ds, rest) => some (c :: ds, rest)
      | none => none
    else none

/-- Match `\b[6-9]\d{9}\b` anchored at the current position (`prev` is the
character just before that position). -/
def matchP1 (prev : Option Char) : List Char → Option (List Char)
  | [] => none
  | c :: cs =>
    if boundaryBefore prev && isLeadDigit c then
      match takeDigitsN 9 cs with
      | some (ds, rest) => if boundaryAfter rest then some (c :: ds) else none
      | none => none
    else none

/-- Match `\b\+91\s*[6-9]\d{9}\b` anchored at the current position. -/
def matchP2 (prev : Option Char) : List Char → Option (List Char)
  | c0 :: c1 :: c2 :: rest =>
    if c0 = '+' ∧ c1 = '9' ∧ c2 = '1' ∧ boundaryBeforePlus prev = true then
      match rest.dropWhile isSpaceCh with
      | d :: cs2 =>
        if isLeadDigit d then
          match takeDigitsN 9 cs2 with
          | some (ds, r) =>
            if boundaryAfter r then
              some ('+' :: '9' :: '1' :: (rest.takeWhile isSpaceCh ++ d :: ds))
            else none
          | none => none
        else none
      | [] => none
    else none
  | _ => none

/-- Match `\b91\s*[6-9]\d{9}\b` anchored at the current position. -/
def matchP3 (prev : Option Char) : List Char → Option (List Char)
  | c0 :: c1 :: rest =>
    if c0 = '9' ∧ c1 = '1' ∧ boundaryBefore prev = true then
      match rest.dropWhile isSpaceCh with
      | d :: cs2 =>
        if isLeadDigit d then
          match takeDigitsN 9 cs2 with
          | some (ds, r) =>
            if boundaryAfter r then
              some ('9' :: '1' :: (rest.takeWhile isSpaceCh ++ d :: ds))
            else none
          | none => none
        else none
      | [] => none
    else none
  | _ => none

/-- `re.search`: try the anchored matcher at each position, leftmost first. -/
def scanWith (m : Option Char → List Char → Option (List Char)) :
    Option Char → List Char → Option (List Char)
  | prev, [] => m prev []
  | prev, c :: cs =>
    match m prev (c :: cs) with
    | some r => some r
    | none => scanWith m (some c) cs

/-- `re.sub(r'\D', '', g)` followed by keeping the last 10 digits when more
than 10 remain. -/
def normalizeNumber (g : List Char) : String :=
  let ds := g.filter isDigitCh
  ⟨if ds.length > 10 then ds.drop (ds.length - 10) else ds⟩

/-- `MessageClassifier._extract_contact`: try the three phone patterns in
order; on the first match strip non-digits and keep the last 10 digits. -/
def extractContact (text : String) : Option String :=
  match scanWith matchP1 none text.data with
  | some g => some (normalizeNumber g)
  | none =>
    match scanWith matchP2 none text.data with
    | some g => some (normalizeNumber g)
    | none =>
      match scanWith matchP3 none text.data with
      | some g => some (normalizeNumber g)
      | none => none

/- ─────────────── listing-type detector (classifier.py) ─────────────── -/

/-- `QUERY_INDICATORS` from keywords.py (note: "urgent" appears twice). -/
def QUERY_INDICATORS : List String := [
  "need", "require", "required", "looking for", "want", "wanted",
  "anyone", "any one", "anybody", "any body", "who has", "who have",
  "please share", "pls share", "can someone", "can anyone",
  "help needed", "urgent", "urgently", "asap", "immediately",
  "searching", "searching for", "find", "finding",
  "recommend", "recommendation", "suggest", "suggestion",
  "any good", "koi acha", "koi accha",
  "nedd", "ned", "requried", "requred", "lokking", "loking",
  "chahiye", "chaiye", "chiye", "mangta", "mangti", "dedo", "de do",
  "bhejo", "batao", "bata do", "koi hai", "koi he", "zarurat",
  "jarurat", "urgent", "jaldi", "turant", "abhi", "foran"]

/-- `OFFER_INDICATORS` from keywords.py. -/
def OFFER_INDICATORS : List String := [
  "available", "for sale", "selling", "on sale", "contact",
  "call me", "reach me", "dm me", "message me", "whatsapp",
  "my number", "contact me", "ping me", "text me",
  "i have", "i am", "we have", "we are",
  "want to sell", "want sell", "wanna sell", "selling my",
  "availble", "avalable", "avialable", "availabel", "seling",
  "milega", "milegi", "mil jayega", "mil jayegi", "available hai",
  "bechna hai", "bech raha", "bech rahi", "contact karo", "call karo",
  "mere paas", "hamare paas", "hum hai", "main hun", "bechna chahta"]

/-- `MessageClassifier._detect_listing_type`, mirroring the score
accumulation loops and the final decision of the source. -/
def detectListingType (text : String) : Option String :=
  let textLower := lowerStr text
  let queryScore0 :=
    QUERY_INDICATORS.foldl (fun n ind => if occursIn ind textLower then n + 1 else n) 0
  let offerScore0 :=
    OFFER_INDICATORS.foldl (fun n ind => if occursIn ind textLower then n + 1 else n) 0
  let queryScore := if text.data.contains '?' then queryScore0 + 2 else queryScore0
  let offerScore := if (extractContact text).isSome then offerScore0 + 1 else offerScore0
  if queryScore > offerScore then some "query"
  else if offerScore > 0 then some "offer"
  else none

/-- Query score as a count: indicator-phrase hits plus 2 for a question mark. -/
def queryScoreOf (text : String) : Nat :=
  QUERY_INDICATORS.countP (fun ind => occursIn ind (lowerStr text)) +
    (if text.data.contains '?' then 2 else 0)

/-- Offer score as a count: indicator-phrase hits plus 1 for an extractable
contact. -/
def offerScoreOf (text : String) : Nat :=
  OFFER_INDICATORS.countP (fun ind => occursIn ind (lowerStr text)) +
    (if (extractContact text).isSome then 1 else 0)

/- ─────────────────── listing store (database.py) ─────────────────── -/

/-- A row of the `listings` table. -/
structure Listing where
  id : Nat
  user_id : Int
  category : String
  subcategory : Option String
  listing_type : String
  contact : Option String
  message : String
  property_type : Option String
  gender_preference : Option String
  created_at : Nat
  expires_at : Nat
deriving DecidableEq, Repr

/-- A row of the `lead_requests` table (the fields the query logic reads). -/
structure LeadRequest where
  user_id : Int
  category : String
  subcategory : Option String
  property_type : Option String
  gender_preference : Option String
  listing_type : String
deriving DecidableEq, Repr

/-- SQL `col LIKE '%pat%'` on a nullable text column (NULL is not LIKE
anything; SQLite LIKE is ASCII case-insensitive). -/
def likeContains (col : Option String) (pat : String) : Bool :=
  match col with
  | none => false
  | some v => containsSub (lowerStr pat).data (lowerStr v).data

/-- A Python-truthy optional string: present and non-empty. -/
def truthy (o : Option String) : Option String :=
  match o with
  | none => none
  | some s => if s = "" then none else some s

/-- The subcategory clause of `get_leads_for_request`: added only when the
request's subcategory is truthy; matches subcategory OR message body. -/
def subcatClause (req : LeadRequest) (l : Listing) : Bool :=
  match truthy req.subcategory with
  | none => true
  | some s => likeContains l.subcategory s || likeContains (some l.message) s

/-- The relaxed property_type clause: exact value OR NULL. -/
def propClause (req : LeadRequest) (l : Listing) : Bool :=
  match truthy req.property_type with
  | none => true
  | some p => l.property_type == some p || l.property_type == none

/-- The relaxed gender_preference clause: exact value OR NULL. -/
def genderClause (req : LeadRequest) (l : Listing) : Bool :=
  match truthy req.gender_preference with
  | none => true
  | some g => l.gender_preference == some g || l.gender_preference == none

/-- The opposite listing type searched by `get_leads_for_request`. -/
def searchTypeOf (req : LeadRequest) : String :=
  if req.listing_type == "query" then "offer" else "query"

/-- The full WHERE clause of `get_leads_for_request`. -/
def matchesReq (req : LeadRequest) (now : Nat) (l : Listing) : Bool :=
  l.category == req.category &&
  l.listing_type == searchTypeOf req &&
  decide (now < l.expires_at) &&
  !(l.contact == none) &&
  !(l.contact == some "") &&
  subcatClause req l &&
  propClause req l &&
  genderClause req l

/-- `COALESCE(contact, user_id)`, the GROUP BY key. -/
def groupKey (l : Listing) : String ⊕ Int :=
  match l.contact with
  | some c => Sum.inl c
  | none => Sum.inr l.user_id

/-- SQLite `GROUP BY` over a table scan with bare columns: one row per key,
the representative being the last row of the group in table order. -/
def dedupKeepLast : List Listing → List Listing
  | [] => []
  | x :: xs =>
    if xs.any (fun y => decide (groupKey y = groupKey x)) then dedupKeepLast xs
    else x :: dedupKeepLast xs

/-- Insert into a list sorted by descending `created_at` (stable). -/
def insertDesc (x : Listing) : List Listing → List Listing
  | [] => [x]
  | y :: ys =>
    if y.created_at ≤ x.created_at then x :: y :: ys else y :: insertDesc x ys

/-- `ORDER BY created_at DESC` as a stable insertion sort. -/
def sortDesc (xs : List Listing) : List Listing := xs.foldr insertDesc []

/-- `get_leads_for_request` applied to a resolved request: WHERE filter,
GROUP BY COALESCE(contact, user_id), ORDER BY created_at DESC,
LIMIT/OFFSET. -/
def getLeadsForRequest (req : LeadRequest) (db : List Listing) (now : Nat)
    (limit offset : Nat) : List Listing :=
  ((sortDesc (dedupKeepLast (db.filter (matchesReq req now)))).drop offset).take limit

/-- The WHERE clause of `get_match_stats` (exact-match attribute filters). -/
def statsMatches (category listing_type : String) (subcategory property_type
    gender_preference : Option String) (now : Nat) (l : Listing) : Bool :=
  l.category == category &&
  l.listing_type == listing_type &&
  decide (now < l.expires_at) &&
  (match truthy subcategory with
   | none => true
   | some s => likeContains l.subcategory s || likeContains (some l.message) s) &&
  (match truthy property_type with
   | none => true
   | some p => l.property_type == some p) &&
  (match truthy gender_preference with
   | none => true
   | some g => l.gender_preference == some g)

/-- `get_match_stats`: total matching count and the count created within the
last 7 days (604800 seconds). -/
def getMatchStats (db : List Listing) (category listing_type : String)
    (subcategory property_type gender_preference : Option String)
    (now : Nat) : Nat × Nat :=
  let matched := db.filter
    (statsMatches category listing_type subcategory property_type gender_preference now)
  (matched.length,
   (matched.filter (fun l => decide (now - 604800 < l.created_at))).length)

/- ─────────────── payment claims (database.py, bot.py) ─────────────── -/

/-- A row of the `payment_claims` table. -/
structure PaymentClaim where
  id : Nat
  user_id : Int
  request_id : Nat
  amount : Nat
  tier : String
  razorpay_link_id : String
  razorpay_payment_id : Option String
  status : String
deriving DecidableEq, Repr

/-- `get_payment_by_link_id`: first claim with the given provider link id. -/
def getPaymentByLinkId (db : List PaymentClaim) (lid : String) :
    Option PaymentClaim :=
  db.find? (fun c => c.razorpay_link_id == lid)

/-- `update_payment_status`: set status and, when the payment id is truthy,
also store it. -/
def updatePaymentStatus (db : List PaymentClaim) (cid : Nat) (status : String)
    (pid : String) : List PaymentClaim :=
  if pid ≠ "" then
    db.map (fun c =>
      if c.id == cid then { c with status := status, razorpay_payment_id := some pid }
      else c)
  else
    db.map (fun c => if c.id == cid then { c with status := status } else c)

/-- The `payment_link.paid` branch of `razorpay_webhook`: look the claim up
by link id; skip if already paid; otherwise mark paid and deliver.  Returns
the new table, whether delivery was triggered, and the response status. -/
def processPaidEvent (db : List PaymentClaim) (linkId paymentId : String) :
    List PaymentClaim × Bool × String :=
  match getPaymentByLinkId db linkId with
  | none => (db, false, "no_claim")
  | some claim =>
    if claim.status == "paid" then (db, false, "already_processed")
    else (updatePaymentStatus db claim.id "paid" paymentId, true, "delivered")

/- ───────────── webhook signature verification (bot.py) ───────────── -/

/-- Addition modulo 2^32. -/
def add32 (a b : Nat) : Nat := (a + b) % 4294967296

/-- Right rotation of a 32-bit word. -/
def rotr32 (n x : Nat) : Nat := x / 2 ^ n + x % 2 ^ n * 2 ^ (32 - n)

/-- Logical right shift of a 32-bit word. -/
def shr32 (n x : Nat) : Nat := x / 2 ^ n

/-- Bitwise complement of a 32-bit word. -/
def not32 (x : Nat) : Nat := Nat.xor x 4294967295

/-- SHA-256 Ch. -/
def shaCh (x y z : Nat) : Nat := Nat.xor (Nat.land x y) (Nat.land (not32 x) z)

/-- SHA-256 Maj. -/
def shaMaj (x y z : Nat) : Nat :=
  Nat.xor (Nat.xor (Nat.land x y) (Nat.land x z)) (Nat.land y z)

/-- SHA-256 Σ0. -/
def bigSigma0 (x : Nat) : Nat :=
  Nat.xor (Nat.xor (rotr32 2 x) (rotr32 13 x)) (rotr32 22 x)

/-- SHA-256 Σ1. -/
def bigSigma1 (x : Nat) : Nat :=
  Nat.xor (Nat.xor (rotr32 6 x) (rotr32 11 x)) (rotr32 25 x)

/-- SHA-256 σ0. -/
def smallSigma0 (x : Nat) : Nat :=
  Nat.xor (Nat.xor (rotr32 7 x) (rotr32 18 x)) (shr32 3 x)

/-- SHA-256 σ1. -/
def smallSigma1 (x : Nat) : Nat :=
  Nat.xor (Nat.xor (rotr32 17 x) (rotr32 19 x)) (shr32 10 x)

/-- The SHA-256 round constants. -/
def shaK : List Nat := [
  1116352408, 1899447441, 3049323471, 3921009573, 961987163,
  1508970993, 2453635748, 2870763221, 3624381080, 310598401,
  607225278, 1426881987, 1925078388, 2162078206, 2614888103,
  3248222580, 3835390401, 4022224774, 264347078, 604807628,
  770255983, 1249150122, 1555081692, 1996064986, 2554220882,
  2821834349, 2952996808, 3210313671, 3336571891, 3584528711,
  113926993, 338241895, 666307205, 773529912, 1294757372,
  1396182291, 1695183700, 1986661051, 2177026350, 2456956037,
  2730485921, 2820302411, 3259730800, 3345764771, 3516065817,
  3600352804, 4094571909, 275423344, 430227734, 506948616,
  659060556, 883997877, 958139571, 1322822218, 1537002063,
  1747873779, 1955562222, 2024104815, 2227730452, 2361852424,
  2428436474, 2756734187, 3204031479, 3329325298]

/-- The SHA-256 initial hash state. -/
def shaH0 : List Nat := [
  1779033703, 3144134277, 1013904242, 2773480762,
  1359893119, 2600822924, 528734635, 1541459225]

/-- Big-endian byte encoding of a value, of a fixed width. -/
def toBytesBE : Nat → Nat → List Nat
  | 0, _ => []
  | n + 1, v => toBytesBE n (v / 256) ++ [v % 256]

/-- SHA-256 padding of a byte message. -/
def padMessage (msg : List Nat) : List Nat :=
  let padZeros := (119 - msg.length % 64) % 64
  msg ++ [0x80] ++ List.replicate padZeros 0 ++ toBytesBE 8 (msg.length * 8)

/-- Pack bytes into big-endian 32-bit words. -/
def bytesToWords : List Nat → List Nat
  | b0 :: b1 :: b2 :: b3 :: rest =>
    (((b0 * 256 + b1) * 256 + b2) * 256 + b3) :: bytesToWords rest
  | _ => []

/-- Extend a 16-word block to the 64-word message schedule. -/
def msgSchedule (block : List Nat) : List Nat :=
  (List.range 48).foldl
    (fun w _ =>
      w ++ [add32
        (add32 (smallSigma1 (w.getD (w.length - 2) 0)) (w.getD (w.length - 7) 0))
        (add32 (smallSigma0 (w.getD (w.length - 15) 0)) (w.getD (w.length - 16) 0))])
    block

/-- One SHA-256 compression round on the state `[a, b, c, d, e, f, g, h]`. -/
def shaRound (w : List Nat) (s : List Nat) (i : Nat) : List Nat :=
  let a := s.getD 0 0
  let b := s.getD 1 0
  let c := s.getD 2 0
  let d := s.getD 3 0
  let e := s.getD 4 0
  let f := s.getD 5 0
  let g := s.getD 6 0
  let hh := s.getD 7 0
  let t1 := add32 (add32 (add32 (add32 hh (bigSigma1 e)) (shaCh e f g)) (shaK.getD i 0))
    (w.getD i 0)
  let t2 := add32 (bigSigma0 a) (shaMaj a b c)
  [add32 t1 t2, a, b, c, add32 d t1, e, f, g]

/-- SHA-256 compression of one 16-word block into the running state. -/
def shaCompress (h : List Nat) (block : List Nat) : List Nat :=
  let w := msgSchedule block
  let s := (List.range 64).foldl (shaRound w) h
  List.zipWith add32 h s

/-- SHA-256 of a byte message, as the eight 32-bit state words. -/
def sha256Words (msg : List Nat) : List Nat :=
  let words := bytesToWords (padMessage msg)
  (List.range (words.length / 16)).foldl
    (fun h i => shaCompress h ((words.drop (i * 16)).take 16)) shaH0

/-- Serialize 32-bit words to big-endian bytes. -/
def wordsToBytes (ws : List Nat) : List Nat :=
  ws.foldr (fun w acc => toBytesBE 4 w ++ acc) []

/-- SHA-256 digest of a byte message. -/
def sha256Bytes (msg : List Nat) : List Nat := wordsToBytes (sha256Words msg)

/-- A lowercase hex digit. -/
def hexDigitChar (n : Nat) : Char :=
  if n < 10 then Char.ofNat (48 + n) else Char.ofNat (87 + n)

/-- Lowercase hex encoding of a byte list (`hexdigest`). -/
def bytesToHex (bs : List Nat) : String :=
  ⟨(bs.map (fun b => [hexDigitChar (b / 16 % 16), hexDigitChar (b % 16)])).flatten⟩

/-- HMAC-SHA256 digest over a byte message with a byte key. -/
def hmacSha256 (key msg : List Nat) : List Nat :=
  let key0 := if key.length > 64 then sha256Bytes key else key
  let kpad := key0 ++ List.replicate (64 - key0.length) 0
  let ipad := kpad.map (fun b => Nat.xor b 0x36)
  let opad := kpad.map (fun b => Nat.xor b 0x5c)
  sha256Bytes (opad ++ sha256Bytes (ipad ++ msg))

/-- `hmac.new(key, body, hashlib.sha256).hexdigest()`. -/
def hmacSha256Hex (key msg : List Nat) : String := bytesToHex (hmacSha256 key msg)

/-- UTF-8 encoding of one code point. -/
def utf8EncodeChar (n : Nat) : List Nat :=
  if n < 0x80 then [n]
  else if n < 0x800 then [0xc0 + n / 64, 0x80 + n % 64]
  else if n < 0x10000 then [0xe0 + n / 4096, 0x80 + n / 64 % 64, 0x80 + n % 64]
  else [0xf0 + n / 262144, 0x80 + n / 4096 % 64, 0x80 + n / 64 % 64, 0x80 + n % 64]

/-- `str.encode('utf-8')`. -/
def utf8Encode (s : String) : List Nat :=
  (s.data.map (fun c => utf8EncodeChar c.toNat)).flatten

/-- `hmac.compare_digest` on hex strings: functionally, equality (its
constant-time execution is a timing property, not a value-level one). -/
def compareDigest (a b : String) : Bool := a == b

/-- `_verify_webhook_signature`: with an unset (empty) secret every request
is accepted; otherwise compare the claimed signature against the hex
HMAC-SHA256 of the raw body under the secret. -/
def verifyWebhookSignature (secret : String) (body : List Nat)
    (signature : String) : Bool :=
  if secret = "" then true
  else compareDigest (hmacSha256Hex (utf8Encode secret) body) signature

/- ───────────────────────── helper lemmas ───────────────────────── -/

lemma insertDesc_perm (x : Listing) (ys : List Listing) :
    List.Perm (insertDesc x ys) (x :: ys) := by
  induction ys with
  | nil => rfl
  | cons y ys ih =>
    unfold insertDesc
    split
    · rfl
    · exact (ih.cons y).trans (List.Perm.swap x y ys)

lemma sortDesc_perm (xs : List Listing) : List.Perm (sortDesc xs) xs := by
  induction xs with
  | nil => rfl
  | cons x xs ih => exact (insertDesc_perm x (sortDesc xs)).trans (ih.cons x)

lemma mem_dedupKeepLast {y : Listing} {xs : List Listing}
    (h : y ∈ dedupKeepLast xs) : y ∈ xs := by
  induction xs with
  | nil => simp [dedupKeepLast] at h
  | cons x xs ih =>
    unfold dedupKeepLast at h
    split at h
    · exact List.mem_cons_of_mem x (ih h)
    · rcases List.mem_cons.mp h with h | h
      · exact h ▸ List.mem_cons_self x xs
      · exact List.mem_cons_of_mem x (ih h)

lemma mem_getLeads {l : Listing} {req : LeadRequest} {db : List Listing}
    {now limit offset : Nat}
    (h : l ∈ getLeadsForRequest req db now limit offset) :
    l ∈ db ∧ matchesReq req now l = true := by
  unfold getLeadsForRequest at h
  have h1 := List.mem_of_mem_drop (List.mem_of_mem_take h)
  have h2 := mem_dedupKeepLast ((sortDesc_perm _).mem_iff.mp h1)
  exact ⟨(List.mem_filter.mp h2).1, (List.mem_filter.mp h2).2⟩

lemma matchesReq_expiry {req : LeadRequest} {now : Nat} {l : Listing}
    (h : matchesReq req now l = true) : now < l.expires_at := by
  simp only [matchesReq, Bool.and_eq_true, decide_eq_true_eq] at h
  exact h.1.1.1.1.1.2

/-- Claim C10: with an empty configured webhook secret, signature
verification is skipped entirely: every body/signature pair is accepted,
including the empty signature. -/
theorem c10_empty_secret_accepts_everything (body : List Nat) (signature : String) :
    verifyWebhookSignature "" body signature = true := by
  simp [verifyWebhookSignature]

/-- Claim C6: for a fixed listing table, the windows `limit=1, offset=0`
and `limit=5, offset=1` concatenate to exactly the window
`limit=6, offset=0`, element for element. -/
theorem c6_pagination_windows (req : LeadRequest) (db : List Listing) (now : Nat) :
    getLeadsForRequest req db now 1 0 ++ getLeadsForRequest req db now 5 1 =
      getLeadsForRequest req db now 6 0 := by
  unfold getLeadsForRequest
  simp only [List.drop_zero]
  rw [show (6 : Nat) = 1 + 5 from rfl, List.take_add]

/-- Claim C3: a listing whose `expires_at` is in the past never appears in
`get_leads_for_request` output, and the `get_match_stats` counts (total and
recent_7d) are unchanged by deleting all expired rows, for every filter
combination. -/
theorem c3_expired_invisible (db : List Listing) (req : LeadRequest)
    (now limit offset : Nat) (category listing_type : String)
    (subcategory property_type gender_preference : Option String)
    (l : Listing) (hexp : l.expires_at ≤ now) :
    l ∉ getLeadsForRequest req db now limit offset ∧
    getMatchStats db category listing_type subcategory property_type
        gender_preference now =
      getMatchStats (db.filter (fun x => decide (now < x.expires_at)))
        category listing_type subcategory property_type gender_preference now := by
  constructor
  · intro hmem
    exact absurd (matchesReq_expiry (mem_getLeads hmem).2) (Nat.not_lt.mpr hexp)
  · unfold getMatchStats
    rw [List.filter_filter]
    have : ∀ x ∈ db,
        (statsMatches category listing_type subcategory property_type
            gender_preference now x && decide (now < x.expires_at)) =
          statsMatches category listing_type subcategory property_type
            gender_preference now x := by
      intro x _
      cases hx : statsMatches category listing_type subcategory property_type
          gender_preference now x
      · simp
      · have : now < x.expires_at := by
          simp only [statsMatches, Bool.and_eq_true, decide_eq_true_eq] at hx
          exact hx.1.1.1.2
        simp [this]
    rw [List.filter_congr this]

lemma getPaymentByLinkId_map (db : List PaymentClaim)
    (f : PaymentClaim → PaymentClaim)
    (hf : ∀ c, (f c).razorpay_link_id = c.razorpay_link_id) (lid : String) :
    getPaymentByLinkId (db.map f) lid = (getPaymentByLinkId db lid).map f := by
  induction db with
  | nil => rfl
  | cons c cs ih =>
    unfold getPaymentByLinkId at ih ⊢
    simp only [List.map_cons, List.find?_cons, hf c]
    cases hc : (c.razorpay_link_id == lid)
    · simpa [hc] using ih
    · simp [hc]

/-- Claim C1: starting from status `created`, processing the
`payment_link.paid` event marks the claim `paid` (storing the provider
payment id) and triggers delivery; reprocessing the same event leaves the
table untouched, does not deliver again, and answers `already_processed`. -/
theorem c1_paid_webhook_idempotent (db : List PaymentClaim) (lid pid : String)
    (c : PaymentClaim) (hfind : getPaymentByLinkId db lid = some c)
    (hstatus : c.status = "created") :
    (processPaidEvent db lid pid).2.1 = true ∧
    (getPaymentByLinkId (processPaidEvent db lid pid).1 lid).map
        PaymentClaim.status = some "paid" ∧
    (pid ≠ "" → (getPaymentByLinkId (processPaidEvent db lid pid).1 lid).map
        PaymentClaim.razorpay_payment_id = some (some pid)) ∧
    processPaidEvent (processPaidEvent db lid pid).1 lid pid =
      ((processPaidEvent db lid pid).1, false, "already_processed") := by
  have hne : (c.status == "paid") = false := by simp [hstatus]
  have hstep : processPaidEvent db lid pid =
      (updatePaymentStatus db c.id "paid" pid, true, "delivered") := by
    unfold processPaidEvent
    rw [hfind]
    simp [hne]
  have hfind1 : ∀ g : PaymentClaim → PaymentClaim,
      (∀ x, (g x).razorpay_link_id = x.razorpay_link_id) →
      getPaymentByLinkId (db.map g) lid = some (g c) := by
    intro g hg
    rw [getPaymentByLinkId_map db g hg lid, hfind]
    rfl
  by_cases hp : pid = ""
  · have hupd : updatePaymentStatus db c.id "paid" pid =
        db.map (fun x => if x.id == c.id then { x with status := "paid" } else x) := by
      simp [updatePaymentStatus, hp]
    have hfound : getPaymentByLinkId (updatePaymentStatus db c.id "paid" pid) lid =
        some { c with status := "paid" } := by
      rw [hupd, hfind1 (fun x => if x.id == c.id then { x with status := "paid" } else x)
        (by intro x; by_cases hx : (x.id == c.id) <;> simp [hx])]
      simp
    refine ⟨by rw [hstep], ?_, fun hpe => absurd hp hpe, ?_⟩
    · rw [hstep]
      rw [hfound]
      rfl
    · rw [hstep]
      unfold processPaidEvent
      rw [hfound]
      simp
  · have hupd : updatePaymentStatus db c.id "paid" pid =
        db.map (fun x => if x.id == c.id then
          { x with status := "paid", razorpay_payment_id := some pid } else x) := by
      simp [updatePaymentStatus, hp]
    have hfound : getPaymentByLinkId (updatePaymentStatus db c.id "paid" pid) lid =
        some { c with status := "paid", razorpay_payment_id := some pid } := by
      rw [hupd, hfind1 (fun x => if x.id == c.id then
          { x with status := "paid", razorpay_payment_id := some pid } else x)
        (by intro x; by_cases hx : (x.id == c.id) <;> simp [hx])]
      simp
    refine ⟨by rw [hstep], ?_, fun _ => ?_, ?_⟩
    · rw [hstep]
      rw [hfound]
      rfl
    · rw [hstep]
      rw [hfound]
      rfl
    · rw [hstep]
      unfold processPaidEvent
      rw [hfound]
      simp

/-- Witness for C1 at a concrete one-claim table. -/
theorem c1_paid_webhook_idempotent_witness :
    (processPaidEvent [⟨1, 7, 3, 49, "t1", "plink_A", none, "created"⟩]
        "plink_A" "pay_X").2.1 = true ∧
    (getPaymentByLinkId (processPaidEvent
        [⟨1, 7, 3, 49, "t1", "plink_A", none, "created"⟩] "plink_A" "pay_X").1
        "plink_A").map PaymentClaim.status = some "paid" ∧
    ("pay_X" ≠ "" → (getPaymentByLinkId (processPaidEvent
        [⟨1, 7, 3, 49, "t1", "plink_A", none, "created"⟩] "plink_A" "pay_X").1
        "plink_A").map PaymentClaim.razorpay_payment_id = some (some "pay_X")) ∧
    processPaidEvent (processPaidEvent
        [⟨1, 7, 3, 49, "t1", "plink_A", none, "created"⟩] "plink_A" "pay_X").1
        "plink_A" "pay_X" =
      ((processPaidEvent [⟨1, 7, 3, 49, "t1", "plink_A", none, "created"⟩]
          "plink_A" "pay_X").1, false, "already_processed") :=
  c1_paid_webhook_idempotent [⟨1, 7, 3, 49, "t1", "plink_A", none, "created"⟩]
    "plink_A" "pay_X" ⟨1, 7, 3, 49, "t1", "plink_A", none, "created"⟩ rfl rfl

/-- Claim C4: under a `property_type = "rent"` filter, a stored listing with
a NULL property_type (all other clauses satisfied) is returned, while no
returned listing has property_type `"sale"`; the same value-or-null rule
holds for the gender_preference filter. -/
theorem c4_relaxed_attribute_matching (req : LeadRequest) (db : List Listing)
    (now limit offset : Nat) (l : Listing)
    (hpt : req.property_type = some "rent")
    (hcat : l.category = req.category)
    (htype : l.listing_type = searchTypeOf req)
    (hexp : now < l.expires_at)
    (hc1 : l.contact ≠ none) (hc2 : l.contact ≠ some "")
    (hsub : subcatClause req l = true) :
    (∀ l2 ∈ getLeadsForRequest req db now limit offset,
        l2.property_type ≠ some "sale") ∧
    (genderClause req l = true → l.property_type = none →
        getLeadsForRequest req [l] now 5 0 = [l]) ∧
    (∀ g, req.gender_preference = some g → g ≠ "" →
        ∀ l2 ∈ getLeadsForRequest req db now limit offset,
          l2.gender_preference = some g ∨ l2.gender_preference = none) ∧
    (propClause req l = true → l.gender_preference = none →
        getLeadsForRequest req [l] now 5 0 = [l]) := by
  have hsingleton : ∀ hpc : propClause req l = true, ∀ hgc : genderClause req l = true,
      getLeadsForRequest req [l] now 5 0 = [l] := by
    intro hpc hgc
    have hmatch : matchesReq req now l = true := by
      have hb1 : (l.contact == none) = false := by
        cases hl : l.contact
        · exact absurd hl hc1
        · rfl
      have hb2 : (l.contact == some "") = false := by
        cases hl : l.contact with
        | none => rfl
        | some v =>
          have : v ≠ "" := fun hv => hc2 (by rw [hl, hv])
          simpa using this
      simp [matchesReq, hcat, htype, hexp, hb1, hb2, hsub, hpc, hgc]
    simp [getLeadsForRequest, hmatch, dedupKeepLast, sortDesc, insertDesc]
  refine ⟨?_, ?_, ?_, ?_⟩
  · intro l2 hl2
    have hm := (mem_getLeads hl2).2
    simp only [matchesReq, Bool.and_eq_true] at hm
    have hpc := hm.1.2
    rw [propClause, hpt] at hpc
    simp only [truthy] at hpc
    simp only [show ("rent" = "") = False by simp, if_false,
      Bool.or_eq_true, beq_iff_eq] at hpc
    rcases hpc with h | h <;> simp [h]
  · intro hgc hnone
    exact hsingleton (by rw [propClause, hpt]; simp [truthy, hnone]) hgc
  · intro g hg hgne l2 hl2
    have hm := (mem_getLeads hl2).2
    simp only [matchesReq, Bool.and_eq_true] at hm
    have hgc := hm.2
    rw [genderClause, hg] at hgc
    simp only [truthy] at hgc
    rw [if_neg hgne] at hgc
    simpa [Bool.or_eq_true, beq_iff_eq] using hgc
  · intro hpc hnone
    refine hsingleton hpc ?_
    rw [genderClause]
    cases hgp : truthy req.gender_preference
    · rfl
    · simp [hnone]

/-- Witness for C4: a rent-filtered, female-filtered request against a
single legacy listing carrying neither attribute. -/
theorem c4_relaxed_attribute_matching_witness :
    (∀ l2 ∈ getLeadsForRequest ⟨1, "property", none, some "rent", some "female", "query"⟩
        [⟨5, 2, "property", none, "offer", some "9876543210", "flat", none, none, 1, 100⟩]
        10 5 0, l2.property_type ≠ some "sale") ∧
    (genderClause ⟨1, "property", none, some "rent", some "female", "query"⟩
        ⟨5, 2, "property", none, "offer", some "9876543210", "flat", none, none, 1, 100⟩ = true →
      (⟨5, 2, "property", none, "offer", some "9876543210", "flat", none, none, 1, 100⟩ :
          Listing).property_type = none →
      getLeadsForRequest ⟨1, "property", none, some "rent", some "female", "query"⟩
        [⟨5, 2, "property", none, "offer", some "9876543210", "flat", none, none, 1, 100⟩]
        10 5 0 =
        [⟨5, 2, "property", none, "offer", some "9876543210", "flat", none, none, 1, 100⟩]) ∧
    (∀ g, (⟨1, "property", none, some "rent", some "female", "query"⟩ :
          LeadRequest).gender_preference = some g → g ≠ "" →
        ∀ l2 ∈ getLeadsForRequest ⟨1, "property", none, some "rent", some "female", "query"⟩
          [⟨5, 2, "property", none, "offer", some "9876543210", "flat", none, none, 1, 100⟩]
          10 5 0, l2.gender_preference = some g ∨ l2.gender_preference = none) ∧
    (propClause ⟨1, "property", none, some "rent", some "female", "query"⟩
        ⟨5, 2, "property", none, "offer", some "9876543210", "flat", none, none, 1, 100⟩ = true →
      (⟨5, 2, "property", none, "offer", some "9876543210", "flat", none, none, 1, 100⟩ :
          Listing).gender_preference = none →
      getLeadsForRequest ⟨1, "property", none, some "rent", some "female", "query"⟩
        [⟨5, 2, "property", none, "offer", some "9876543210", "flat", none, none, 1, 100⟩]
        10 5 0 =
        [⟨5, 2, "property", none, "offer", some "9876543210", "flat", none, none, 1, 100⟩]) :=
  c4_relaxed_attribute_matching
    ⟨1, "property", none, some "rent", some "female", "query"⟩
    [⟨5, 2, "property", none, "offer", some "9876543210", "flat", none, none, 1, 100⟩]
    10 5 0
    ⟨5, 2, "property", none, "offer", some "9876543210", "flat", none, none, 1, 100⟩
    rfl rfl rfl (by decide) (by decide) (by decide) rfl

lemma nodup_dedup_keys (xs : List Listing) :
    ((dedupKeepLast xs).map groupKey).Nodup := by
  induction xs with
  | nil => simp [dedupKeepLast]
  | cons x xs ih =>
    unfold dedupKeepLast
    split
    · exact ih
    case isFalse h =>
      simp only [List.map_cons, List.nodup_cons]
      refine ⟨fun hmem => ?_, ih⟩
      rcases List.mem_map.mp hmem with ⟨y, hy, hk⟩
      exact h (List.any_eq_true.mpr ⟨y, mem_dedupKeepLast hy, by simp [hk]⟩)

lemma dedup_last_max (xs : List Listing)
    (hmono : List.Pairwise (fun a b => a.created_at ≤ b.created_at) xs)
    {y : Listing} (hy : y ∈ dedupKeepLast xs)
    {z : Listing} (hz : z ∈ xs) (hk : groupKey z = groupKey y) :
    z.created_at ≤ y.created_at := by
  induction xs with
  | nil => simp at hz
  | cons x xs ih =>
    rw [List.pairwise_cons] at hmono
    unfold dedupKeepLast at hy
    split at hy
    case isTrue h =>
      rcases List.mem_cons.mp hz with rfl | hz2
      · exact hmono.1 y (mem_dedupKeepLast hy)
      · exact ih hmono.2 hy hz2
    case isFalse h =>
      rcases List.mem_cons.mp hy with rfl | hy2
      · rcases List.mem_cons.mp hz with rfl | hz2
        · exact Nat.le_refl _
        · exact absurd (List.any_eq_true.mpr ⟨z, hz2, by simp [hk]⟩) h
      · rcases List.mem_cons.mp hz with rfl | hz2
        · exact hmono.1 y (mem_dedupKeepLast hy2)
        · exact ih hmono.2 hy2 hz2

/-- Claim C2: the find_opposite path returns at most one listing per
distinct `coalesce(contact, user_id)` key, keeping the most recent of each
group (for a table in insertion order of `created_at`); on the concrete
four-listing scenario — three sharing one contact across two users, one
distinct — it returns 2 rows with 2 distinct contacts. -/
theorem c2_dedup_by_contact (db : List Listing) (req : LeadRequest)
    (now limit offset : Nat)
    (hmono : List.Pairwise (fun a b => a.created_at ≤ b.created_at) db) :
    ((getLeadsForRequest req db now limit offset).map groupKey).Nodup ∧
    (∀ y ∈ getLeadsForRequest req db now limit offset,
      ∀ z ∈ db, matchesReq req now z = true → groupKey z = groupKey y →
        z.created_at ≤ y.created_at) ∧
    ((getLeadsForRequest ⟨999, "TestCat", none, none, none, "query"⟩
        [⟨1, 101, "TestCat", none, "offer", some "9876543210", "Offer 1", none, none, 1, 100⟩,
         ⟨2, 101, "TestCat", none, "offer", some "9876543210", "Offer 2", none, none, 2, 100⟩,
         ⟨3, 102, "TestCat", none, "offer", some "9876543210", "Offer 3", none, none, 3, 100⟩,
         ⟨4, 103, "TestCat", none, "offer", some "1122334455", "Offer 4", none, none, 4, 100⟩]
        10 10 0).length = 2 ∧
     ((getLeadsForRequest ⟨999, "TestCat", none, none, none, "query"⟩
        [⟨1, 101, "TestCat", none, "offer", some "9876543210", "Offer 1", none, none, 1, 100⟩,
         ⟨2, 101, "TestCat", none, "offer", some "9876543210", "Offer 2", none, none, 2, 100⟩,
         ⟨3, 102, "TestCat", none, "offer", some "9876543210", "Offer 3", none, none, 3, 100⟩,
         ⟨4, 103, "TestCat", none, "offer", some "1122334455", "Offer 4", none, none, 4, 100⟩]
        10 10 0).map Listing.contact).dedup.length = 2) := by
  refine ⟨?_, ?_, by decide⟩
  · have h0 := nodup_dedup_keys (db.filter (matchesReq req now))
    have h1 : ((sortDesc (dedupKeepLast (db.filter (matchesReq req now)))).map
        groupKey).Nodup :=
      (((sortDesc_perm _).map groupKey).nodup_iff).mpr h0
    exact List.Nodup.sublist
      (List.Sublist.map groupKey ((List.take_sublist _ _).trans (List.drop_sublist _ _)))
      h1
  · intro y hy z hz hmz hk
    unfold getLeadsForRequest at hy
    have hy1 : y ∈ dedupKeepLast (db.filter (matchesReq req now)) :=
      (sortDesc_perm _).mem_iff.mp
        (List.mem_of_mem_drop (List.mem_of_mem_take hy))
    exact dedup_last_max _
      (List.Pairwise.sublist (List.filter_sublist db) hmono)
      hy1 (List.mem_filter.mpr ⟨hz, hmz⟩) hk

/-- Witness for C2 at the concrete four-listing table. -/
theorem c2_dedup_by_contact_witness :
    ((getLeadsForRequest ⟨999, "TestCat", none, none, none, "query"⟩
        [⟨1, 101, "TestCat", none, "offer", some "9876543210", "Offer 1", none, none, 1, 100⟩,
         ⟨2, 101, "TestCat", none, "offer", some "9876543210", "Offer 2", none, none, 2, 100⟩,
         ⟨3, 102, "TestCat", none, "offer", some "9876543210", "Offer 3", none, none, 3, 100⟩,
         ⟨4, 103, "TestCat", none, "offer", some "1122334455", "Offer 4", none, none, 4, 100⟩]
        10 10 0).map groupKey).Nodup ∧
    (∀ y ∈ getLeadsForRequest ⟨999, "TestCat", none, none, none, "query"⟩
        [⟨1, 101, "TestCat", none, "offer", some "9876543210", "Offer 1", none, none, 1, 100⟩,
         ⟨2, 101, "TestCat", none, "offer", some "9876543210", "Offer 2", none, none, 2, 100⟩,
         ⟨3, 102, "TestCat", none, "offer", some "9876543210", "Offer 3", none, none, 3, 100⟩,
         ⟨4, 103, "TestCat", none, "offer", some "1122334455", "Offer 4", none, none, 4, 100⟩]
        10 10 0,
      ∀ z ∈ [⟨1, 101, "TestCat", none, "offer", some "9876543210", "Offer 1", none, none, 1, 100⟩,
         ⟨2, 101, "TestCat", none, "offer", some "9876543210", "Offer 2", none, none, 2, 100⟩,
         ⟨3, 102, "TestCat", none, "offer", some "9876543210", "Offer 3", none, none, 3, 100⟩,
         (⟨4, 103, "TestCat", none, "offer", some "1122334455", "Offer 4", none, none, 4, 100⟩ :
           Listing)],
        matchesReq ⟨999, "TestCat", none, none, none, "query"⟩ 10 z = true →
          groupKey z = groupKey y → z.created_at ≤ y.created_at) ∧
    ((getLeadsForRequest ⟨999, "TestCat", none, none, none, "query"⟩
        [⟨1, 101, "TestCat", none, "offer", some "9876543210", "Offer 1", none, none, 1, 100⟩,
         ⟨2, 101, "TestCat", none, "offer", some "9876543210", "Offer 2", none, none, 2, 100⟩,
         ⟨3, 102, "TestCat", none, "offer", some "9876543210", "Offer 3", none, none, 3, 100⟩,
         ⟨4, 103, "TestCat", none, "offer", some "1122334455", "Offer 4", none, none, 4, 100⟩]
        10 10 0).length = 2 ∧
     ((getLeadsForRequest ⟨999, "TestCat", none, none, none, "query"⟩
        [⟨1, 101, "TestCat", none, "offer", some "9876543210", "Offer 1", none, none, 1, 100⟩,
         ⟨2, 101, "TestCat", none, "offer", some "9876543210", "Offer 2", none, none, 2, 100⟩,
         ⟨3, 102, "TestCat", none, "offer", some "9876543210", "Offer 3", none, none, 3, 100⟩,
         ⟨4, 103, "TestCat", none, "offer", some "1122334455", "Offer 4", none, none, 4, 100⟩]
        10 10 0).map Listing.contact).dedup.length = 2) :=
  c2_dedup_by_contact
    [⟨1, 101, "TestCat", none, "offer", some "9876543210", "Offer 1", none, none, 1, 100⟩,
     ⟨2, 101, "TestCat", none, "offer", some "9876543210", "Offer 2", none, none, 2, 100⟩,
     ⟨3, 102, "TestCat", none, "offer", some "9876543210", "Offer 3", none, none, 3, 100⟩,
     ⟨4, 103, "TestCat", none, "offer", some "1122334455", "Offer 4", none, none, 4, 100⟩]
    ⟨999, "TestCat", none, none, none, "query"⟩ 10 10 0 (by decide)

/-- Witness for C3 at a concrete expired listing. -/
theorem c3_expired_invisible_witness :
    (⟨1, 5, "maid", none, "offer", some "9876543210", "cook", none, none, 1, 7⟩ :
        Listing) ∉
      getLeadsForRequest ⟨2, "maid", none, none, none, "query"⟩
        [⟨1, 5, "maid", none, "offer", some "9876543210", "cook", none, none, 1, 7⟩] 10 5 0 ∧
    getMatchStats
        [⟨1, 5, "maid", none, "offer", some "9876543210", "cook", none, none, 1, 7⟩]
        "maid" "offer" none none none 10 =
      getMatchStats
        ([⟨1, 5, "maid", none, "offer", some "9876543210", "cook", none, none, 1, 7⟩].filter
          (fun x => decide (10 < x.expires_at)))
        "maid" "offer" none none none 10 :=
  c3_expired_invisible
    [⟨1, 5, "maid", none, "offer", some "9876543210", "cook", none, none, 1, 7⟩]
    ⟨2, "maid", none, none, none, "query"⟩ 10 5 0 "maid" "offer" none none none
    ⟨1, 5, "maid", none, "offer", some "9876543210", "cook", none, none, 1, 7⟩
    (by decide)

lemma foldl_score_count (p : String → Bool) (l : List String) (n : Nat) :
    l.foldl (fun m ind => if p ind then m + 1 else m) n = n + l.countP p := by
  induction l generalizing n with
  | nil => simp
  | cons a l ih =>
    simp only [List.foldl_cons, List.countP_cons, ih]
    cases p a
    · simp
    · simp
      omega

/-- Claim C9: the heuristic detector scores a text by counting the query and
offer indicator phrases it contains, adding 2 to the query score for a
literal question mark and 1 to the offer score for an extractable contact;
it answers `query` when the query score strictly exceeds the offer score,
`offer` when the offer score is positive and not exceeded, and null exactly
when both scores are zero. -/
theorem c9_listing_type_scoring (t : String) :
    detectListingType t =
      (if offerScoreOf t < queryScoreOf t then some "query"
       else if 0 < offerScoreOf t then some "offer" else none) ∧
    (detectListingType t = none ↔ queryScoreOf t = 0 ∧ offerScoreOf t = 0) := by
  have hq : queryScoreOf t =
      QUERY_INDICATORS.countP (fun ind => occursIn ind (lowerStr t)) +
        (if t.data.contains '?' then 2 else 0) := rfl
  have ho : offerScoreOf t =
      OFFER_INDICATORS.countP (fun ind => occursIn ind (lowerStr t)) +
        (if (extractContact t).isSome then 1 else 0) := rfl
  have hd : detectListingType t =
      (if offerScoreOf t < queryScoreOf t then some "query"
       else if 0 < offerScoreOf t then some "offer" else none) := by
    unfold detectListingType
    simp only [foldl_score_count, Nat.zero_add]
    rw [hq, ho]
    cases hcq : t.data.contains '?' <;> cases hcc : (extractContact t).isSome <;>
      simp [hcq, hcc]
  refine ⟨hd, ?_⟩
  rw [hd]
  constructor
  · intro hnone
    by_cases h1 : offerScoreOf t < queryScoreOf t
    · rw [if_pos h1] at hnone
      exact absurd hnone (by simp)
    · rw [if_neg h1] at hnone
      by_cases h2 : 0 < offerScoreOf t
      · rw [if_pos h2] at hnone
        exact absurd hnone (by simp)
      · omega
  · intro ⟨h1, h2⟩
    rw [h1, h2]
    rfl

/-- Claim C7 is contradicted by the code: neither spec example input yields
a contact — the code's phone patterns accept no internal separators and no
bare leading zero, so both return `None`. -/
theorem c7_extractor_rejects_spec_examples :
    extractContact "+91 98765 43210" = none ∧
    extractContact "09876543210" = none :=
  ⟨rfl, rfl⟩

lemma isDigitCh_of_lead {c : Char} (h : isLeadDigit c = true) :
    isDigitCh c = true := by
  simp only [isLeadDigit, Bool.and_eq_true, decide_eq_true_eq] at h
  simp only [isDigitCh, Bool.and_eq_true, decide_eq_true_eq]
  exact ⟨le_trans (by decide) h.1, h.2⟩

lemma not_digit_of_space {c : Char} (h : isSpaceCh c = true) :
    isDigitCh c = false := by
  simp only [isSpaceCh, Bool.or_eq_true, beq_iff_eq] at h
  rcases h with (((((rfl | rfl) | rfl) | rfl) | rfl) | rfl) <;> rfl

lemma takeDigitsN_spec {n : Nat} {cs ds rest : List Char}
    (h : takeDigitsN n cs = some (ds, rest)) :
    ds.length = n ∧ ∀ c ∈ ds, isDigitCh c = true := by
  induction n generalizing cs ds rest with
  | zero =>
    simp only [takeDigitsN, Option.some_inj, Prod.mk.injEq] at h
    rw [← h.1]
    simp
  | succ n ih =>
    cases cs with
    | nil => simp [takeDigitsN] at h
    | cons c cs2 =>
      simp only [takeDigitsN] at h
      split at h
      case isTrue hdig =>
        split at h
        next ds2 rest2 heq =>
          simp only [Option.some_inj, Prod.mk.injEq] at h
          obtain ⟨hds, -⟩ := h
          obtain ⟨hl, hall⟩ := ih heq
          subst hds
          refine ⟨by simp [hl], ?_⟩
          intro a ha
          rcases List.mem_cons.mp ha with rfl | ha2
          · exact hdig
          · exact hall a ha2
        next => exact absurd h (by simp)
      case isFalse => exact absurd h (by simp)

lemma takeDigitsN_all (ds : List Char) (h : ∀ c ∈ ds, isDigitCh c = true) :
    takeDigitsN ds.length ds = some (ds, []) := by
  induction ds with
  | nil => rfl
  | cons c cs ih =>
    simp only [List.length_cons, takeDigitsN, h c (List.mem_cons_self c cs),
      if_true, ih (fun x hx => h x (List.mem_cons_of_mem c hx))]

lemma matchP1_spec {prev : Option Char} {cs g : List Char}
    (h : matchP1 prev cs = some g) :
    ∃ d ds, g = d :: ds ∧ isLeadDigit d = true ∧ ds.length = 9 ∧
      ∀ c ∈ ds, isDigitCh c = true := by
  cases cs with
  | nil => simp [matchP1] at h
  | cons c cs2 =>
    simp only [matchP1] at h
    split at h
    case isTrue hb =>
      split at h
      next ds rest heq =>
        split at h
        · obtain ⟨hl, hall⟩ := takeDigitsN_spec heq
          rw [Bool.and_eq_true] at hb
          exact ⟨c, ds, by injection h with h2; exact h2.symm, hb.2, hl, hall⟩
        · exact absurd h (by simp)
      next => exact absurd h (by simp)
    case isFalse => exact absurd h (by simp)

lemma matchP2_spec {prev : Option Char} {cs g : List Char}
    (h : matchP2 prev cs = some g) :
    ∃ ws d ds, g = '+' :: '9' :: '1' :: (ws ++ d :: ds) ∧
      (∀ c ∈ ws, isSpaceCh c = true) ∧ isLeadDigit d = true ∧ ds.length = 9 ∧
      ∀ c ∈ ds, isDigitCh c = true := by
  match cs with
  | [] => simp [matchP2] at h
  | [c0] => simp [matchP2] at h
  | [c0, c1] => simp [matchP2] at h
  | c0 :: c1 :: c2 :: rest =>
    simp only [matchP2] at h
    split at h
    case isTrue hb =>
      split at h
      next d cs2 heq =>
        split at h
        case isTrue hd =>
          split at h
          next ds r heq2 =>
            split at h
            · obtain ⟨hl, hall⟩ := takeDigitsN_spec heq2
              refine ⟨rest.takeWhile isSpaceCh, d, ds,
                by injection h with h2; exact h2.symm, ?_, hd, hl, hall⟩
              intro a ha
              exact List.mem_takeWhile_imp ha
            · exact absurd h (by simp)
          next => exact absurd h (by simp)
        case isFalse => exact absurd h (by simp)
      next => exact absurd h (by simp)
    case isFalse => exact absurd h (by simp)

lemma matchP3_spec {prev : Option Char} {cs g : List Char}
    (h : matchP3 prev cs = some g) :
    ∃ ws d ds, g = '9' :: '1' :: (ws ++ d :: ds) ∧
      (∀ c ∈ ws, isSpaceCh c = true) ∧ isLeadDigit d = true ∧ ds.length = 9 ∧
      ∀ c ∈ ds, isDigitCh c = true := by
  match cs with
  | [] => simp [matchP3] at h
  | [c0] => simp [matchP3] at h
  | c0 :: c1 :: rest =>
    simp only [matchP3] at h
    split at h
    case isTrue hb =>
      split at h
      next d cs2 heq =>
        split at h
        case isTrue hd =>
          split at h
          next ds r heq2 =>
            split at h
            · obtain ⟨hl, hall⟩ := takeDigitsN_spec heq2
              refine ⟨rest.takeWhile isSpaceCh, d, ds,
                by injection h with h2; exact h2.symm, ?_, hd, hl, hall⟩
              intro a ha
              exact List.mem_takeWhile_imp ha
            · exact absurd h (by simp)
          next => exact absurd h (by simp)
        case isFalse => exact absurd h (by simp)
      next => exact absurd h (by simp)
    case isFalse => exact absurd h (by simp)

lemma scanWith_spec {m : Option Char → List Char → Option (List Char)}
    {prev : Option Char} {cs g : List Char} (h : scanWith m prev cs = some g) :
    ∃ prev2 cs2, m prev2 cs2 = some g := by
  induction cs generalizing prev with
  | nil => exact ⟨prev, [], h⟩
  | cons c cs ih =>
    simp only [scanWith] at h
    split at h
    next r heq =>
      injection h with h2
      exact ⟨prev, c :: cs, h2 ▸ heq⟩
    next => exact ih h

lemma filter_digits_core (ws : List Char) (d : Char) (ds : List Char)
    (hws : ∀ c ∈ ws, isSpaceCh c = true) :
    (ws ++ d :: ds).filter isDigitCh = (d :: ds).filter isDigitCh := by
  rw [List.filter_append]
  have : ws.filter isDigitCh = [] := by
    rw [List.filter_eq_nil_iff]
    intro a ha
    simp [not_digit_of_space (hws a ha)]
  rw [this, List.nil_append]

lemma filter_digits_all (d : Char) (ds : List Char) (hd : isLeadDigit d = true)
    (hds : ∀ c ∈ ds, isDigitCh c = true) :
    (d :: ds).filter isDigitCh = d :: ds := by
  rw [List.filter_eq_self]
  intro a ha
  rcases List.mem_cons.mp ha with rfl | ha2
  · exact isDigitCh_of_lead hd
  · exact hds a ha2

lemma normalizeNumber_P1 {d : Char} {ds : List Char} (hd : isLeadDigit d = true)
    (hlen : ds.length = 9) (hds : ∀ c ∈ ds, isDigitCh c = true) :
    normalizeNumber (d :: ds) = ⟨d :: ds⟩ := by
  unfold normalizeNumber
  rw [filter_digits_all d ds hd hds]
  simp [hlen]

lemma normalizeNumber_P3 {ws : List Char} {d : Char} {ds : List Char}
    (hws : ∀ c ∈ ws, isSpaceCh c = true) (hd : isLeadDigit d = true)
    (hlen : ds.length = 9) (hds : ∀ c ∈ ds, isDigitCh c = true) :
    normalizeNumber ('9' :: '1' :: (ws ++ d :: ds)) = ⟨d :: ds⟩ := by
  unfold normalizeNumber
  have h1 : ('9' :: '1' :: (ws ++ d :: ds)).filter isDigitCh =
      '9' :: '1' :: (d :: ds) := by
    show List.filter isDigitCh ('9' :: '1' :: (ws ++ d :: ds)) = _
    rw [List.filter_cons_of_pos (by rfl), List.filter_cons_of_pos (by rfl),
      filter_digits_core ws d ds hws, filter_digits_all d ds hd hds]
  rw [h1]
  simp [hlen]

lemma normalizeNumber_P2 {ws : List Char} {d : Char} {ds : List Char}
    (hws : ∀ c ∈ ws, isSpaceCh c = true) (hd : isLeadDigit d = true)
    (hlen : ds.length = 9) (hds : ∀ c ∈ ds, isDigitCh c = true) :
    normalizeNumber ('+' :: '9' :: '1' :: (ws ++ d :: ds)) = ⟨d :: ds⟩ := by
  unfold normalizeNumber
  have h1 : ('+' :: '9' :: '1' :: (ws ++ d :: ds)).filter isDigitCh =
      '9' :: '1' :: (d :: ds) := by
    show List.filter isDigitCh ('+' :: '9' :: '1' :: (ws ++ d :: ds)) = _
    rw [List.filter_cons_of_neg (by simp [isDigitCh]),
      List.filter_cons_of_pos (by rfl), List.filter_cons_of_pos (by rfl),
      filter_digits_core ws d ds hws, filter_digits_all d ds hd hds]
  rw [h1]
  simp [hlen]

lemma extractContact_spec {s : String} {r : String}
    (h : extractContact s = some r) :
    ∃ d ds, r = ⟨d :: ds⟩ ∧ isLeadDigit d = true ∧ ds.length = 9 ∧
      ∀ c ∈ ds, isDigitCh c = true := by
  unfold extractContact at h
  split at h
  next g heq =>
    obtain ⟨p2, c2, hm⟩ := scanWith_spec heq
    obtain ⟨d, ds, rfl, hd, hl, hall⟩ := matchP1_spec hm
    refine ⟨d, ds, ?_, hd, hl, hall⟩
    injection h with h2
    rw [← h2, normalizeNumber_P1 hd hl hall]
  next hn1 =>
    split at h
    next g heq =>
      obtain ⟨p2, c2, hm⟩ := scanWith_spec heq
      obtain ⟨ws, d, ds, rfl, hws, hd, hl, hall⟩ := matchP2_spec hm
      refine ⟨d, ds, ?_, hd, hl, hall⟩
      injection h with h2
      rw [← h2, normalizeNumber_P2 hws hd hl hall]
    next hn2 =>
      split at h
      next g heq =>
        obtain ⟨p2, c2, hm⟩ := scanWith_spec heq
        obtain ⟨ws, d, ds, rfl, hws, hd, hl, hall⟩ := matchP3_spec hm
        refine ⟨d, ds, ?_, hd, hl, hall⟩
        injection h with h2
        rw [← h2, normalizeNumber_P3 hws hd hl hall]
      next => exact absurd h (by simp)

lemma extractContact_canonical (d : Char) (ds : List Char)
    (hd : isLeadDigit d = true) (hlen : ds.length = 9)
    (hds : ∀ c ∈ ds, isDigitCh c = true) :
    extractContact ⟨d :: ds⟩ = some ⟨d :: ds⟩ := by
  have hm : matchP1 none (d :: ds) = some (d :: ds) := by
    simp only [matchP1, boundaryBefore, Bool.true_and, hd, if_true]
    rw [← hlen, takeDigitsN_all ds hds]
    rfl
  have hscan : scanWith matchP1 none (d :: ds) = some (d :: ds) := by
    simp only [scanWith, hm]
  show (match scanWith matchP1 none (⟨d :: ds⟩ : String).data with
    | some g => some (normalizeNumber g)
    | none =>
      match scanWith matchP2 none (⟨d :: ds⟩ : String).data with
      | some g => some (normalizeNumber g)
      | none =>
        match scanWith matchP3 none (⟨d :: ds⟩ : String).data with
        | some g => some (normalizeNumber g)
        | none => none) = some ⟨d :: ds⟩
  rw [show (⟨d :: ds⟩ : String).data = d :: ds from rfl, hscan]
  show some (normalizeNumber (d :: ds)) = some (⟨d :: ds⟩ : String)
  rw [normalizeNumber_P1 hd hlen hds]

/-- Claim C8: the contact extractor returns null or a 10-character digit
string, and it is idempotent — re-running it on its own non-null output
returns that output unchanged. -/
theorem c8_extractor_idempotent (s r : String)
    (h : extractContact s = some r) :
    r.length = 10 ∧ extractContact r = some r := by
  obtain ⟨d, ds, rfl, hd, hlen, hds⟩ := extractContact_spec h
  refine ⟨?_, extractContact_canonical d ds hd hlen hds⟩
  show (String.mk (d :: ds)).length = 10
  simp [String.length, hlen]

/-- Witness for C8 on a concrete message containing a phone number. -/
theorem c8_extractor_idempotent_witness :
    ("9876543210" : String).length = 10 ∧
    extractContact "9876543210" = some "9876543210" :=
  c8_extractor_idempotent "Call me at 9876543210" "9876543210" rfl

set_option maxRecDepth 200000

/-- Counterexample to C5 as universally stated: with the empty webhook
secret, a signature that is not the body's HMAC is still accepted. -/
theorem c5_counterexample_empty_secret :
    verifyWebhookSignature "" [97] "zz" = true ∧
    "zz" ≠ hmacSha256Hex (utf8Encode "") [97] := by
  refine ⟨rfl, ?_⟩
  decide

/-- Claim C5 amended to nonempty secrets (the empty secret skips
verification, see C10): verification accepts exactly the hex HMAC-SHA256
of the raw body under the secret, so a signature valid for one body is
rejected for any body whose HMAC differs. -/
theorem c5_signature_verification (secret : String) (body body2 : List Nat)
    (sig : String) (hsec : secret ≠ "")
    (hdiff : hmacSha256Hex (utf8Encode secret) body2 ≠
      hmacSha256Hex (utf8Encode secret) body) :
    (verifyWebhookSignature secret body sig = true ↔
      sig = hmacSha256Hex (utf8Encode secret) body) ∧
    verifyWebhookSignature secret body2
      (hmacSha256Hex (utf8Encode secret) body) = false := by
  unfold verifyWebhookSignature compareDigest
  rw [if_neg hsec, if_neg hsec]
  constructor
  · rw [beq_iff_eq]
    exact eq_comm
  · exact beq_eq_false_iff_ne.mpr hdiff

/-- Witness for C5 at a concrete secret and two bodies with different
digests. -/
theorem c5_signature_verification_witness :
    (verifyWebhookSignature "key" [97] "x" = true ↔
      "x" = hmacSha256Hex (utf8Encode "key") [97]) ∧
    verifyWebhookSignature "key" [98]
      (hmacSha256Hex (utf8Encode "key") [97]) = false :=
  c5_signature_verification "key" [97] [98] "x" (by decide) (by decide)

end HousingBot
